import Mathlib

/-!
Verification of selected behaviors of the fireworks workflow engine.

The definitions below are shallow embeddings of functions from:
  fireworks/utilities/fw_utilities.py   (get_slug, create_datestamp_dir)
  fireworks/scripts/lpad_run.py         (pw_check, the lpad subcommand dispatch)
  fireworks/utilities/lazy.py           (Lazy.__getattr__ / Lazy.__setattr__)
  fireworks/utilities/timing.py         (Timer.start / Timer.stop)
  fireworks/core/rocket_launcher.py     (rapidfire)

Machine interaction (wall clock, the MongoDB launchpad, the file system,
interactive input) is modelled by explicit oracle parameters; everything
else follows the Python source line by line.
-/

namespace Fireworks

/-! Section get_slug (fw_utilities.py lines 158-161) -/

/-- Characters of Python string.ascii_letters. -/
def ascii_letters : List Char :=
  "abcdefghijklmnopqrstuvwxyzABCDEFGHIJKLMNOPQRSTUVWXYZ".toList

/-- Characters of Python string.digits. -/
def ascii_digits : List Char := "0123456789".toList

/-- Embeds valid_chars = "-_.() %s%s" % (string.ascii_letters, string.digits). -/
def valid_chars : List Char := "-_.() ".toList ++ ascii_letters ++ ascii_digits

/-- Embeds get_slug: keep only characters of valid_chars, then replace
each space with an underscore. -/
def get_slug (m_str : String) : String :=
  String.mk (((m_str.toList.filter (fun c => c ∈ valid_chars))).map
    (fun c => if c = ' ' then '_' else c))

/-- The character set the slug output is claimed to stay inside:
ASCII letters, digits, and the characters -, _, ., (, ). -/
def slug_chars : List Char := "-_.()".toList ++ ascii_letters ++ ascii_digits

/-! Section pw_check (lpad_run.py lines 45-56)

The interactive clock and prompt are oracle arguments: `today` is the
dated password datetime.now().strftime of the day of the call, and
`promptAns` is the string the user types at the Y/N prompt.  An unset
args.password (Python None or empty, both falsy) is the empty string. -/

/-- Result of a pw_check call: the returned id list, a raised ValueError,
or the IndexError Python raises on input(...)[0] when the prompt answer
is empty. -/
inductive PwResult
  | ok (ids : List Int)
  | valueError (msg : String)
  | indexError
  deriving DecidableEq, Repr

/-- Embeds pw_check.  When more than pwCheckNum ids are passed and
skip_pw is not set, an unset password triggers the Y/N prompt (an
affirmative first letter sets args.password to today's date); then a
password differing from today's date raises ValueError. -/
def pw_check (pwCheckNum : Nat) (today promptAns : String)
    (ids : List Int) (password : String) (skip_pw : Bool) : PwResult :=
  if ids.length > pwCheckNum ∧ skip_pw = false then
    let m_password := today
    if password = "" then
      match promptAns.toList with
      | [] => PwResult.indexError
      | c :: _ =>
        if c.toUpper = 'Y' then
          if today ≠ m_password then
            PwResult.valueError "password mismatch" else PwResult.ok ids
        else
          PwResult.valueError "Operation aborted by user."
    else
      if password ≠ m_password then
        PwResult.valueError "password mismatch" else PwResult.ok ids
  else PwResult.ok ids

/-! Section The lpad workflow-admin subcommands (lpad_run.py)

Each subcommand handler resolves its selection arguments to a list of
workflow ids through parse_helper and then applies one LaunchPad
mutation per id; we record the mutations issued. -/

/-- One LaunchPad workflow-level admin mutation. -/
inductive AdminCall
  | pauseWf (fw_id : Int)
  | defuseWf (fw_id : Int) (defuse_all_states : Bool)
  | reigniteWf (fw_id : Int)
  | archiveWf (fw_id : Int)
  | deleteWf (fw_id : Int)
  deriving DecidableEq, Repr

/-- Embeds defuse_wfs (lpad_run.py lines 340-351): for each selected id,
call lp.defuse_wf(f, defuse_all_states=args.defuse_all_states). -/
def defuse_wfs (fw_ids : List Int) (defuse_all_states : Bool) : List AdminCall :=
  fw_ids.map (fun f => AdminCall.defuseWf f defuse_all_states)

/-- Embeds pause_wfs (lpad_run.py lines 353-359): for each selected id,
call lp.pause_wf(f). -/
def pause_wfs (fw_ids : List Int) : List AdminCall :=
  fw_ids.map (fun f => AdminCall.pauseWf f)

/-- Embeds reignite_wfs: for each selected id, call lp.reignite_wf(f). -/
def reignite_wfs (fw_ids : List Int) : List AdminCall :=
  fw_ids.map (fun f => AdminCall.reigniteWf f)

/-- Embeds archive: for each selected id, call lp.archive_wf(f). -/
def archive (fw_ids : List Int) : List AdminCall :=
  fw_ids.map (fun f => AdminCall.archiveWf f)

/-- Embeds delete_wfs: for each selected id, call lp.delete_wf(f). -/
def delete_wfs (fw_ids : List Int) : List AdminCall :=
  fw_ids.map (fun f => AdminCall.deleteWf f)

/-- The handler functions that the workflow-level subcommand parsers can
name in set_defaults(func=...). -/
inductive WfCmdFunc
  | defuseWfsF
  | pauseWfsF
  | reigniteWfsF
  | archiveF
  | deleteWfsF
  deriving DecidableEq, Repr

/-- Embeds the set_defaults(func=...) wiring of the workflow-level
subcommand parsers (lpad_run.py lines 848, 859, 871, 882, 895).  Note
line 848: defuse_wf_parser.set_defaults(func=pause_wfs). -/
def lpad_wf_subcommand_func : String → Option WfCmdFunc
  | "defuse_wflows" => some WfCmdFunc.pauseWfsF
  | "pause_wflows" => some WfCmdFunc.pauseWfsF
  | "reignite_wflows" => some WfCmdFunc.reigniteWfsF
  | "archive_wflows" => some WfCmdFunc.archiveF
  | "delete_wflows" => some WfCmdFunc.deleteWfsF
  | _ => none

/-- Runs a workflow-admin handler on the ids parse_helper produced.
Only defuse_wfs reads args.defuse_all_states. -/
def runWfCmdFunc (f : WfCmdFunc) (fw_ids : List Int)
    (defuse_all_states : Bool) : List AdminCall :=
  match f with
  | WfCmdFunc.defuseWfsF => defuse_wfs fw_ids defuse_all_states
  | WfCmdFunc.pauseWfsF => pause_wfs fw_ids
  | WfCmdFunc.reigniteWfsF => reignite_wfs fw_ids
  | WfCmdFunc.archiveF => archive fw_ids
  | WfCmdFunc.deleteWfsF => delete_wfs fw_ids

/-- The calls the CLI command line `lpad <cmd> ...` issues once
parse_helper has resolved the selection to fw_ids. -/
def lpad_wf_command (cmd : String) (fw_ids : List Int)
    (defuse_all_states : Bool) : Option (List AdminCall) :=
  (lpad_wf_subcommand_func cmd).map
    (fun f => runWfCmdFunc f fw_ids defuse_all_states)

/-! Section Lazy (lazy.py lines 25-74)

The underlying record is an attribute map; `_instantiate` is modelled as
a pure function from the accessed attribute name to the object it
returns (Python None becomes `none`, a truthy object becomes `some`).
The recursive "try again" calls on a falsy `_instantiate` result
re-enter the dunder with unchanged state, so they are fuel-bounded and
exhausting the fuel models Python's RecursionError. -/

/-- The attribute dictionary of the materialized underlying object. -/
def ObjAttrs := List (String × Int)
deriving DecidableEq, Repr

/-- Python setattr on a plain object: update the instance dictionary. -/
def objSet (o : ObjAttrs) (name : String) (v : Int) : ObjAttrs :=
  (name, v) :: (List.filter (fun p => p.1 ≠ name) o)

/-- Python getattr on a plain object. -/
def objGet (o : ObjAttrs) (name : String) : Option Int :=
  (List.find? (fun p => p.1 = name) o).map (fun p => p.2)

/-- Result of Lazy.__setattr__: the new value of the `_obj` slot, an
AttributeError, or a RecursionError from the unbounded "try again". -/
inductive LSetResult
  | ok (obj : Option ObjAttrs)
  | attributeError
  | recursionError
  deriving DecidableEq, Repr

/-- Embeds Lazy.__setattr__ (lazy.py lines 57-67).  `watch` is the class
attribute watch_attrs, `inst` is `_instantiate`, `obj` the `_obj` slot
(`none` when still the falsy initial None). -/
def lazySet (watch : List String) (inst : String → Option ObjAttrs) :
    Nat → Option ObjAttrs → String → Int → LSetResult
  | 0, _, _, _ => LSetResult.recursionError
  | _fuel + 1, some o, name, v => LSetResult.ok (some (objSet o name v))
  | fuel + 1, none, name, v =>
    if name ∈ watch then
      match inst name with
      | some o => LSetResult.ok (some (objSet o name v))
      | none =>
        match lazySet watch inst fuel none name v with
        | LSetResult.ok (some o) => LSetResult.ok (some (objSet o name v))
        | LSetResult.ok none => LSetResult.attributeError
        | e => e
    else LSetResult.attributeError

/-- Result of Lazy.__getattr__: the value read (with the `_obj` slot
after the read), or an error. -/
inductive LGetResult
  | ok (v : Int) (obj : Option ObjAttrs)
  | attributeError
  | recursionError
  deriving DecidableEq, Repr

/-- Embeds Lazy.__getattr__ (lazy.py lines 45-55).  getattr(self._obj,
name) raises AttributeError when the underlying object lacks the
attribute. -/
def lazyGet (watch : List String) (inst : String → Option ObjAttrs) :
    Nat → Option ObjAttrs → String → LGetResult
  | 0, _, _ => LGetResult.recursionError
  | _fuel + 1, some o, name =>
    match objGet o name with
    | some v => LGetResult.ok v (some o)
    | none => LGetResult.attributeError
  | fuel + 1, none, name =>
    if name ∈ watch then
      match inst name with
      | some o =>
        match objGet o name with
        | some v => LGetResult.ok v (some o)
        | none => LGetResult.attributeError
      | none => lazyGet watch inst fuel none name
    else LGetResult.attributeError

/-! Section Timer (timing.py lines 160-249)

Wall-clock instants are abstract integers; the per-stage dictionaries
`_stage_times`, `_stage_counts` and `_stage_active` are total maps to
Option values, a missing key being `none`. -/

/-- The mutable state of a Timer. -/
structure TimerState where
  stageTimes : String → Option Int
  stageCounts : String → Option Nat
  stageActive : String → Option Nat

/-- Pointwise dictionary update. -/
def mapSet {α : Type} (m : String → Option α) (k : String) (v : Option α) :
    String → Option α :=
  fun s => if s = k then v else m s

/-- Embeds Timer.start(stage) called at instant `now`. -/
def timerStart (st : TimerState) (stage : String) (now : Int) : TimerState :=
  match st.stageActive stage with
  | none =>
    let tm := (st.stageTimes stage).getD 0
    { st with
      stageTimes := mapSet st.stageTimes stage (some (tm - now))
      stageActive := mapSet st.stageActive stage (some 1) }
  | some d =>
    { st with stageActive := mapSet st.stageActive stage (some (d + 1)) }

/-- Embeds Timer.stop(stage) called at instant `now`.  Returns `none`
for the KeyError Python raises when the stage is not active. -/
def timerStop (st : TimerState) (stage : String) (now : Int) :
    Option TimerState :=
  match st.stageActive stage with
  | none => none
  | some d =>
    if d = 1 then
      some { st with
        stageTimes := mapSet st.stageTimes stage
          (some ((st.stageTimes stage).getD 0 + now))
        stageCounts := mapSet st.stageCounts stage
          (some ((st.stageCounts stage).getD 0 + 1))
        stageActive := mapSet st.stageActive stage none }
    else
      some { st with stageActive := mapSet st.stageActive stage (some (d - 1)) }

/-- A start or stop event on a stage, with the instant it happens at. -/
inductive TimerEvent
  | start (stage : String) (now : Int)
  | stop (stage : String) (now : Int)

/-- Runs a sequence of Timer events. -/
def runTimer : TimerState → List TimerEvent → Option TimerState
  | st, [] => some st
  | st, TimerEvent.start stage now :: rest => runTimer (timerStart st stage now) rest
  | st, TimerEvent.stop stage now :: rest =>
    (timerStop st stage now).bind (fun st' => runTimer st' rest)

/-- The event sequence of claim C10: a first start at t1, `ts` further
nested starts, `us` nested stops, and a final stop at uLast, all on one
stage. -/
def balancedSeq (stage : String) (t1 : Int) (ts us : List Int)
    (uLast : Int) : List TimerEvent :=
  TimerEvent.start stage t1 ::
    (ts.map (fun t => TimerEvent.start stage t) ++
      us.map (fun u => TimerEvent.stop stage u) ++
      [TimerEvent.stop stage uLast])

/-! Section create_datestamp_dir (fw_utilities.py lines 119-144)

The file system and the clock are oracles: `exists0` is os.path.exists
during the call and `timeAt n` the value of datetime.datetime.utcnow()
at the n-th evaluation of get_path.  FW_BLOCK_FORMAT itself lives in
fireworks/fw_config.py, outside the sources at hand, so its rendering
is modelled from the spec. -/

/-- A UTC instant broken into the fields strftime reads. -/
structure UTCTime where
  year : Nat
  month : Nat
  day : Nat
  hour : Nat
  minute : Nat
  second : Nat
  microsecond : Nat

/-- Zero-pads the decimal rendering of n to the given width. -/
def padNum (width n : Nat) : String :=
  let s := toString n
  String.mk (List.replicate (width - s.length) '0') ++ s

/-- Modelled from the spec: FW_BLOCK_FORMAT (fireworks/fw_config.py, not
among the given sources) renders a UTC instant as
YYYY-MM-DD-HH-MM-SS-ffffff, the timestamp format for generated
directories. -/
def fwBlockFormat (t : UTCTime) : String :=
  padNum 4 t.year ++ "-" ++ padNum 2 t.month ++ "-" ++ padNum 2 t.day ++
    "-" ++ padNum 2 t.hour ++ "-" ++ padNum 2 t.minute ++ "-" ++
    padNum 2 t.second ++ "-" ++ padNum 6 t.microsecond

/-- The oracles create_datestamp_dir interacts with. -/
structure DirOracle where
  exists0 : String → Bool
  timeAt : Nat → UTCTime

/-- Embeds the inner get_path closure: os.path.join(root_dir, prefix
plus the formatted utcnow). -/
def get_path (env : DirOracle) (root_dir prfx : String) (n : Nat) : String :=
  root_dir ++ "/" ++ (prfx ++ fwBlockFormat (env.timeAt n))

/-- The retry loop of create_datestamp_dir: while the path exists, sleep
a random fraction of a second and re-generate from a fresh utcnow. -/
def cdsLoop (env : DirOracle) (root_dir prfx : String) :
    Nat → Nat → Option String
  | 0, _ => none
  | fuel + 1, n =>
    let full_path := get_path env root_dir prfx n
    if env.exists0 full_path then cdsLoop env root_dir prfx fuel (n + 1)
    else some full_path

/-- Embeds create_datestamp_dir: generate a datestamped path, retry on
collision, then os.mkdir it and return it.  `none` models a run that
never finds a free name within the fuel. -/
def create_datestamp_dir (env : DirOracle) (root_dir prfx : String)
    (fuel : Nat) : Option String :=
  cdsLoop env root_dir prfx fuel 0

/-- The prefix rapidfire passes to create_datestamp_dir
(rocket_launcher.py line 73). -/
def rapidfireDirTag : String := "launcher_"

/-! Section rapidfire (rocket_launcher.py lines 45-99)

The launchpad and the rockets are oracles indexed by the number of
rocket invocations made so far: `runExists i` is what
launchpad.run_exists(fworker) returns when i rockets have already been
invoked, `rocketRan i` is the return value of the i-th launch_rocket
call, and `dirEmpty i` tells whether the i-th launcher directory is
empty after its rocket finishes.  Loops carry explicit fuel; a `none`
result means the fuel ran out, a `some` result is a genuine return. -/

/-- The environment a rapidfire run observes. -/
structure RFEnv where
  runExists : Nat → Bool
  rocketRan : Nat → Bool
  dirEmpty : Nat → Bool

/-- The loop variables of rapidfire, plus instrumentation: `invocations`
counts launch_rocket calls (each of which first created one launcher
directory, numbered by the invocation index), and `removedDirs` lists
the launcher directories os.rmdir removed. -/
structure RFState where
  numLaunched : Nat
  numLoops : Nat
  invocations : Nat
  removedDirs : List Nat
  deriving DecidableEq, Repr

/-- One iteration body of the inner while loop, up to the break test:
create launcher dir i, run the rocket, count a successful launch, and
remove the directory when the rocket did not run and it is empty. -/
def rfStep (env : RFEnv) (s : RFState) : RFState :=
  let i := s.invocations
  let ran := env.rocketRan i
  { s with
    invocations := i + 1
    numLaunched := if ran then s.numLaunched + 1 else s.numLaunched
    removedDirs :=
      if ran = false ∧ env.dirEmpty i = true then s.removedDirs ++ [i]
      else s.removedDirs }

/-- Embeds the inner `while launchpad.run_exists(fworker)` loop of
rapidfire, with its `if num_launched == nlaunches: break`. -/
def rfInner (env : RFEnv) (nlaunches : Int) :
    Nat → RFState → Option RFState
  | 0, _ => none
  | fuel + 1, s =>
    if env.runExists s.invocations then
      let s' := rfStep env s
      if (s'.numLaunched : Int) = nlaunches then some s'
      else rfInner env nlaunches fuel s'
    else some s

/-- Embeds the outer `while num_loops != max_loops` loop of rapidfire,
with its `if num_launched == nlaunches or nlaunches == 0: break`. -/
def rfOuter (env : RFEnv) (nlaunches max_loops : Int) (ifuel : Nat) :
    Nat → RFState → Option RFState
  | 0, _ => none
  | ofuel + 1, s =>
    if (s.numLoops : Int) = max_loops then some s
    else
      (rfInner env nlaunches ifuel s).bind (fun s' =>
        if (s'.numLaunched : Int) = nlaunches ∨ nlaunches = 0 then some s'
        else rfOuter env nlaunches max_loops ifuel ofuel
          { s' with numLoops := s'.numLoops + 1 })

/-- The state rapidfire starts from: num_launched = 0, num_loops = 0,
no invocations yet. -/
def rfInit : RFState :=
  { numLaunched := 0, numLoops := 0, invocations := 0, removedDirs := [] }

/-- Embeds a full rapidfire call. -/
def rapidfire (env : RFEnv) (nlaunches max_loops : Int)
    (ifuel ofuel : Nat) : Option RFState :=
  rfOuter env nlaunches max_loops ifuel ofuel rfInit

/-- Number of rocket invocations among the first n that actually ran. -/
def countRan (env : RFEnv) (n : Nat) : Nat :=
  ((List.range n).filter (fun i => env.rocketRan i)).length

/-- The launcher directories among the first n that rapidfire's body
removes: rocket did not run and the directory is empty. -/
def removedUpTo (env : RFEnv) (n : Nat) : List Nat :=
  (List.range n).filter
    (fun i => env.rocketRan i = false ∧ env.dirEmpty i = true)

/-- An attribute access on a Lazy proxy: a read or a write. -/
inductive LazyOp
  | get (name : String)
  | set (name : String) (v : Int)

/-- Runs a sequence of attribute accesses on a Lazy proxy, threading the
`_obj` slot; an error aborts the run. -/
def runLazy (watch : List String) (inst : String → Option ObjAttrs)
    (fuel : Nat) : Option ObjAttrs → List LazyOp → Option (Option ObjAttrs)
  | obj, [] => some obj
  | obj, LazyOp.get n :: rest =>
    match lazyGet watch inst fuel obj n with
    | LGetResult.ok _ obj' => runLazy watch inst fuel obj' rest
    | _ => none
  | obj, LazyOp.set n v :: rest =>
    match lazySet watch inst fuel obj n v with
    | LSetResult.ok obj' => runLazy watch inst fuel obj' rest
    | _ => none

/-! Section Theorems -/

/-- Claim C1 (code_bug): the `defuse_wflows` subcommand is wired by
set_defaults to the pause_wfs handler (lpad_run.py line 848), so running
`lpad defuse_wflows` issues LaunchPad.pause_wf on every selected
workflow and ignores --defuse_all_states, while the defuse_wfs handler
(which would issue LaunchPad.defuse_wf with the flag) is never invoked.
The parser's own name, help text and --defuse_all_states argument show
the dispatch is a slip. -/
theorem c1_defuse_wflows_runs_pause :
    lpad_wf_command "defuse_wflows" [7] true = some [AdminCall.pauseWf 7] ∧
    runWfCmdFunc WfCmdFunc.defuseWfsF [7] true =
      [AdminCall.defuseWf 7 true] ∧
    AdminCall.pauseWf 7 ≠ AdminCall.defuseWf 7 true := by
  refine ⟨rfl, rfl, ?_⟩
  decide

/-- Claim C9: get_slug output contains only ASCII letters, digits and
the characters -, _, ., (, ), and get_slug is idempotent. -/
theorem c9_get_slug_chars_idempotent (s : String) :
    (∀ c ∈ (get_slug s).toList, c ∈ slug_chars) ∧
    get_slug (get_slug s) = get_slug s := by
  have hmap : ∀ c ∈ valid_chars, (if c = ' ' then '_' else c) ∈ slug_chars := by
    decide
  have hsub : ∀ c ∈ slug_chars, c ∈ valid_chars := by decide
  have hnsp : ∀ c ∈ slug_chars, ¬c = ' ' := by decide
  have hchars : ∀ (l : List Char),
      ∀ c ∈ (l.filter (fun c => c ∈ valid_chars)).map
        (fun c => if c = ' ' then '_' else c), c ∈ slug_chars := by
    intro l c hc
    rcases List.mem_map.mp hc with ⟨c', hc', rfl⟩
    exact hmap c' (of_decide_eq_true (List.mem_filter.mp hc').2)
  constructor
  · intro c hc
    exact hchars s.toList c hc
  · show String.mk _ = String.mk _
    congr 1
    have hfix : ∀ (l : List Char), (∀ c ∈ l, c ∈ slug_chars) →
        (l.filter (fun c => c ∈ valid_chars)).map
          (fun c => if c = ' ' then '_' else c) = l := by
      intro l hl
      induction l with
      | nil => rfl
      | cons c l ih =>
        have hcmem : c ∈ slug_chars := hl c (List.mem_cons_self c l)
        have h1 : decide (c ∈ valid_chars) = true :=
          decide_eq_true (hsub c hcmem)
        have h2 : ¬c = ' ' := hnsp c hcmem
        simp only [List.filter_cons, h1, if_true, List.map_cons, if_neg h2]
        rw [ih (fun x hx => hl x (List.mem_cons_of_mem c hx))]
    exact hfix _ (hchars s.toList)

/-- Counterexample to claim C3 as stated: on a fresh Lazy proxy (the
`_obj` slot still None), writing an attribute that is not in watch_attrs
raises AttributeError ("no monkey-patching", lazy.py line 66), so not
every attribute write succeeds. -/
theorem c3_counterexample :
    lazySet ["foo"] (fun _ => some []) 5 none "bar" 1 =
      LSetResult.attributeError := by
  rfl

/-- Claim C3 as amended: a write to a watched attribute before
materialization (when _instantiate returns a truthy object) and any
write after materialization succeed and are immediately forwarded to
the underlying record, where the value is readable back; a write to a
non-watched attribute before materialization raises AttributeError. -/
theorem c3_lazy_setattr_amended (watch : List String)
    (inst : String → Option ObjAttrs) (o newO : ObjAttrs)
    (name : String) (v : Int) (fuel : Nat) :
    (lazySet watch inst (fuel + 1) (some o) name v =
        LSetResult.ok (some (objSet o name v)) ∧
      objGet (objSet o name v) name = some v) ∧
    (name ∈ watch → inst name = some newO →
      lazySet watch inst (fuel + 1) none name v =
        LSetResult.ok (some (objSet newO name v))) ∧
    (name ∉ watch →
      lazySet watch inst (fuel + 1) none name v =
        LSetResult.attributeError) := by
  refine ⟨⟨rfl, ?_⟩, ?_, ?_⟩
  · simp [objGet, objSet, List.find?]
  · intro hw hi
    simp [lazySet, hw, hi]
  · intro hw
    simp [lazySet, hw]

/-- Claim C8: once the `_obj` slot holds a materialized object, reads
and writes delegate directly to that object and `_instantiate` is never
consulted again: any sequence of accesses gives identical results under
any two `_instantiate` functions, and a single read or write is exactly
the corresponding operation on the underlying object (the slot stays
materialized). -/
theorem c8_materialized_delegates_directly (watch : List String)
    (inst inst' : String → Option ObjAttrs) (o : ObjAttrs)
    (ops : List LazyOp) (name : String) (v : Int) (fuel : Nat) :
    runLazy watch inst fuel (some o) ops =
      runLazy watch inst' fuel (some o) ops ∧
    lazyGet watch inst (fuel + 1) (some o) name =
      (match objGet o name with
        | some w => LGetResult.ok w (some o)
        | none => LGetResult.attributeError) ∧
    lazySet watch inst (fuel + 1) (some o) name v =
      LSetResult.ok (some (objSet o name v)) := by
  refine ⟨?_, rfl, rfl⟩
  induction ops generalizing o with
  | nil => rfl
  | cons op rest ih =>
    cases op with
    | get n =>
      cases fuel with
      | zero => rfl
      | succ m =>
        show runLazy _ _ _ _ (LazyOp.get n :: rest) = _
        simp only [runLazy, lazyGet]
        cases objGet o n with
        | none => rfl
        | some w => exact ih o
    | set n w =>
      cases fuel with
      | zero => rfl
      | succ m =>
        show runLazy _ _ _ _ (LazyOp.set n w :: rest) = _
        simp only [runLazy, lazySet]
        exact ih (objSet o n w)

/-- Witness for the amended claim C3 at a concrete input: a write to the
watched attribute "state" on a fresh proxy materializes and lands on the
underlying record. -/
theorem c3_lazy_setattr_amended_witness :
    lazySet ["state"] (fun _ => some [("fw_id", 1)]) 3 none "state" 7 =
      LSetResult.ok (some (objSet [("fw_id", 1)] "state" 7)) :=
  (c3_lazy_setattr_amended ["state"] (fun _ => some [("fw_id", 1)])
      [("x", 0)] [("fw_id", 1)] "state" 7 2).2.1
    (by simp) rfl

/-- Claim C4: pw_check returns the ids unchanged, for every password and
prompt answer, when at most pwCheckNum ids are passed or skip_pw is set;
with more ids and skip_pw unset it succeeds (still returning the ids
unchanged) exactly when the supplied password is today's date or the
password is unset and the prompt answer starts with an affirmative
letter, and raises otherwise. -/
theorem c4_pw_check_gate (pwCheckNum : Nat) (today promptAns : String)
    (ids : List Int) (password : String) (skip_pw : Bool)
    (htoday : today ≠ "") :
    ((ids.length ≤ pwCheckNum ∨ skip_pw = true) →
      pw_check pwCheckNum today promptAns ids password skip_pw =
        PwResult.ok ids) ∧
    (pwCheckNum < ids.length → skip_pw = false →
      (pw_check pwCheckNum today promptAns ids password skip_pw =
          PwResult.ok ids ↔
        (password = today ∨ (password = "" ∧
          ∃ c rest, promptAns.toList = c :: rest ∧ c.toUpper = 'Y')))) := by
  constructor
  · intro hle
    have hcond : ¬(ids.length > pwCheckNum ∧ skip_pw = false) := by
      intro hc
      rcases hle with h | h
      · exact absurd hc.1 (not_lt.mpr h)
      · rw [h] at hc
        exact absurd hc.2 (by decide)
    rw [pw_check, if_neg hcond]
  · intro hgt hskip
    have hcond : ids.length > pwCheckNum ∧ skip_pw = false := ⟨hgt, hskip⟩
    rw [pw_check, if_pos hcond]
    by_cases hpw : password = ""
    · rw [if_pos hpw]
      cases hans : promptAns.toList with
      | nil =>
        simp only [hans]
        constructor
        · intro h
          exact absurd h (by simp)
        · rintro (h | ⟨-, c, rest, hcr, -⟩)
          · exact absurd (hpw ▸ h).symm htoday
          · exact absurd hcr (by simp)
      | cons c rest =>
        simp only [hans]
        by_cases hy : c.toUpper = 'Y'
        · rw [if_pos hy, if_neg (fun hne => hne rfl)]
          constructor
          · intro _
            exact Or.inr ⟨hpw, c, rest, rfl, hy⟩
          · intro _
            rfl
        · rw [if_neg hy]
          constructor
          · intro h
            exact absurd h (by simp)
          · rintro (h | ⟨-, c', rest', hcr, hy'⟩)
            · exact absurd (hpw ▸ h).symm htoday
            · cases hcr
              exact absurd hy' hy
    · rw [if_neg hpw]
      by_cases heq : password = today
      · rw [if_neg (fun hne => hne heq)]
        exact ⟨fun _ => Or.inl heq, fun _ => rfl⟩
      · rw [if_pos heq]
        constructor
        · intro h
          exact absurd h (by simp)
        · rintro (h | ⟨h, -⟩)
          · exact absurd h heq
          · exact absurd h hpw

/-- Witness for claim C4 at a concrete input: 3 ids against a threshold
of 2, unset password, affirmative prompt answer. -/
theorem c4_pw_check_gate_witness :
    (("2026-10-12" : String) ≠ "" ∧ 2 < ([1, 2, 3] : List Int).length ∧
      (false : Bool) = false) ∧
    (pw_check 2 "2026-10-12" "yes" [1, 2, 3] "" false =
        PwResult.ok [1, 2, 3] ↔
      (("" : String) = "2026-10-12" ∨ (("" : String) = "" ∧
        ∃ c rest, ("yes" : String).toList = c :: rest ∧ c.toUpper = 'Y'))) :=
  ⟨⟨by decide, by decide, rfl⟩,
    (c4_pw_check_gate 2 "2026-10-12" "yes" [1, 2, 3] "" false
      (by decide)).2 (by decide) rfl⟩

/-- The inner rapidfire loop with nlaunches = 0 returns either because
run_exists went false, or because a rocket reported not-run while
num_launched was still 0 (the `num_launched == nlaunches` break). -/
theorem rfInner_zero_exit (env : RFEnv) :
    ∀ (ifuel : Nat) (s s' : RFState),
      rfInner env 0 ifuel s = some s' →
      env.runExists s'.invocations = false ∨
        (s'.numLaunched = 0 ∧ 0 < s'.invocations ∧
          env.rocketRan (s'.invocations - 1) = false) := by
  intro ifuel
  induction ifuel with
  | zero =>
    intro s s' h
    exact absurd h (by simp [rfInner])
  | succ n ih =>
    intro s s' h
    rw [rfInner] at h
    by_cases hre : env.runExists s.invocations = true
    · rw [if_pos hre] at h
      by_cases hbr : ((rfStep env s).numLaunched : Int) = 0
      · rw [if_pos hbr] at h
        simp only [Option.some.injEq] at h
        subst h
        right
        by_cases hr : env.rocketRan s.invocations = true
        · exfalso
          rw [show (rfStep env s).numLaunched = s.numLaunched + 1 from
            by simp [rfStep, hr]] at hbr
          omega
        · have hr' : env.rocketRan s.invocations = false := by
            simpa using hr
          refine ⟨by exact_mod_cast hbr, by simp [rfStep], ?_⟩
          simpa [rfStep] using hr'
      · rw [if_neg hbr] at h
        exact ih _ _ h
    · rw [if_neg hre] at h
      simp only [Option.some.injEq] at h
      subst h
      exact Or.inl (by simpa using hre)

/-- Claim C2 as amended: a rapidfire call with nlaunches = 0 and the
default max_loops = -1 that returns did so either because run_exists
went false (no runnable firework remains), or because a rocket reported
not-run while num_launched was still 0; in particular once one rocket
has run, only run_exists going false ends the loop. -/
theorem c2_rapidfire_zero_amended (env : RFEnv) (ifuel ofuel : Nat)
    (s : RFState) (h : rapidfire env 0 (-1) ifuel ofuel = some s) :
    env.runExists s.invocations = false ∨
      (s.numLaunched = 0 ∧ 0 < s.invocations ∧
        env.rocketRan (s.invocations - 1) = false) := by
  cases ofuel with
  | zero => exact absurd h (by simp [rapidfire, rfOuter])
  | succ m =>
    rw [rapidfire, rfOuter] at h
    rw [if_neg (show ¬((rfInit.numLoops : Int) = -1) by simp [rfInit])] at h
    cases hinner : rfInner env 0 ifuel rfInit with
    | none =>
      rw [hinner] at h
      cases h
    | some s1 =>
      rw [hinner, Option.some_bind, if_pos (Or.inr rfl)] at h
      simp only [Option.some.injEq] at h
      subst h
      exact rfInner_zero_exit env ifuel _ _ hinner

/-- Oracle refuting claim C2: work always exists, the rocket never
runs. -/
def rfEnvNoRun : RFEnv :=
  { runExists := fun _ => true, rocketRan := fun _ => false,
    dirEmpty := fun _ => true }

/-- Counterexample to claim C2 as stated: with nlaunches = 0 and
max_loops = -1, a first rocket invocation that reports not-run while
run_exists is still true makes rapidfire return after that single
invocation (the `num_launched == nlaunches` break fires at 0 == 0), so
the loop does terminate early with a runnable firework remaining. -/
theorem c2_counterexample :
    rapidfire rfEnvNoRun 0 (-1) 5 5 =
      some { numLaunched := 0, numLoops := 0, invocations := 1,
             removedDirs := [0] } ∧
    rfEnvNoRun.runExists 1 = true := by
  decide

/-- Oracle for the C2 witness: two rockets run, then the queue is
empty. -/
def rfEnvTwo : RFEnv :=
  { runExists := fun n => n < 2, rocketRan := fun _ => true,
    dirEmpty := fun _ => false }

/-- Final state of the C2 witness run. -/
def rfTwoFinal : RFState :=
  { numLaunched := 2, numLoops := 0, invocations := 2, removedDirs := [] }

/-- Witness for the amended claim C2 at a concrete input. -/
theorem c2_rapidfire_zero_amended_witness :
    rapidfire rfEnvTwo 0 (-1) 5 5 = some rfTwoFinal ∧
    (rfEnvTwo.runExists rfTwoFinal.invocations = false ∨
      (rfTwoFinal.numLaunched = 0 ∧ 0 < rfTwoFinal.invocations ∧
        rfEnvTwo.rocketRan (rfTwoFinal.invocations - 1) = false)) :=
  ⟨by decide, c2_rapidfire_zero_amended rfEnvTwo 5 5 rfTwoFinal (by decide)⟩

/-- Any property preserved by the loop body is preserved by the inner
rapidfire loop. -/
theorem rfInner_preserves (env : RFEnv) (nl : Int) (P : RFState → Prop)
    (hstep : ∀ s, P s → P (rfStep env s)) :
    ∀ (ifuel : Nat) (s s' : RFState),
      rfInner env nl ifuel s = some s' → P s → P s' := by
  intro ifuel
  induction ifuel with
  | zero =>
    intro s s' h
    exact absurd h (by simp [rfInner])
  | succ n ih =>
    intro s s' h hP
    rw [rfInner] at h
    by_cases hre : env.runExists s.invocations = true
    · rw [if_pos hre] at h
      by_cases hbr : ((rfStep env s).numLaunched : Int) = nl
      · rw [if_pos hbr] at h
        simp only [Option.some.injEq] at h
        subst h
        exact hstep s hP
      · rw [if_neg hbr] at h
        exact ih _ _ h (hstep s hP)
    · rw [if_neg hre] at h
      simp only [Option.some.injEq] at h
      subst h
      exact hP

/-- Any property preserved by the loop body and by the num_loops bump is
preserved by the outer rapidfire loop. -/
theorem rfOuter_preserves (env : RFEnv) (nl ml : Int) (ifuel : Nat)
    (P : RFState → Prop)
    (hstep : ∀ s, P s → P (rfStep env s))
    (hloops : ∀ s n, P s → P { s with numLoops := n }) :
    ∀ (ofuel : Nat) (s s' : RFState),
      rfOuter env nl ml ifuel ofuel s = some s' → P s → P s' := by
  intro ofuel
  induction ofuel with
  | zero =>
    intro s s' h
    exact absurd h (by simp [rfOuter])
  | succ m ih =>
    intro s s' h hP
    rw [rfOuter] at h
    by_cases hml : (s.numLoops : Int) = ml
    · rw [if_pos hml] at h
      simp only [Option.some.injEq] at h
      subst h
      exact hP
    · rw [if_neg hml] at h
      cases hinner : rfInner env nl ifuel s with
      | none =>
        rw [hinner] at h
        cases h
      | some s1 =>
        rw [hinner, Option.some_bind] at h
        have hP1 : P s1 := rfInner_preserves env nl P hstep ifuel s s1 hinner hP
        by_cases hbk : (s1.numLaunched : Int) = nl ∨ nl = 0
        · rw [if_pos hbk] at h
          simp only [Option.some.injEq] at h
          subst h
          exact hP1
        · rw [if_neg hbk] at h
          exact ih _ _ h (hloops s1 _ hP1)

/-- The loop body keeps num_launched equal to the number of invocations
whose rocket ran. -/
theorem rfStep_countRan (env : RFEnv) (s : RFState)
    (h : s.numLaunched = countRan env s.invocations) :
    (rfStep env s).numLaunched = countRan env (rfStep env s).invocations := by
  have hr : countRan env (s.invocations + 1) =
      countRan env s.invocations +
        (if env.rocketRan s.invocations = true then 1 else 0) := by
    unfold countRan
    rw [List.range_succ, List.filter_append, List.length_append]
    by_cases hb : env.rocketRan s.invocations = true <;>
      simp [List.filter, hb]
  by_cases hb : env.rocketRan s.invocations = true <;>
    simp [rfStep, hb, hr, h]

/-- The loop body keeps removedDirs equal to the removal rule applied to
all invocations so far. -/
theorem rfStep_removed (env : RFEnv) (s : RFState)
    (h : s.removedDirs = removedUpTo env s.invocations) :
    (rfStep env s).removedDirs =
      removedUpTo env (rfStep env s).invocations := by
  have hr : removedUpTo env (s.invocations + 1) =
      removedUpTo env s.invocations ++
        (if env.rocketRan s.invocations = false ∧
            env.dirEmpty s.invocations = true
          then [s.invocations] else []) := by
    unfold removedUpTo
    rw [List.range_succ, List.filter_append]
    by_cases hc : env.rocketRan s.invocations = false ∧
        env.dirEmpty s.invocations = true <;>
      simp [List.filter, hc]
  by_cases hc : env.rocketRan s.invocations = false ∧
      env.dirEmpty s.invocations = true <;>
    simp [rfStep, hc, hr, h]

/-- When run_exists never goes false, the inner loop can only return
through the `num_launched == nlaunches` break. -/
theorem rfInner_exit_all_runs (env : RFEnv) (nl : Int)
    (hre : ∀ n, env.runExists n = true) :
    ∀ (ifuel : Nat) (s s' : RFState),
      rfInner env nl ifuel s = some s' → (s'.numLaunched : Int) = nl := by
  intro ifuel
  induction ifuel with
  | zero =>
    intro s s' h
    exact absurd h (by simp [rfInner])
  | succ n ih =>
    intro s s' h
    rw [rfInner, if_pos (hre s.invocations)] at h
    by_cases hbr : ((rfStep env s).numLaunched : Int) = nl
    · rw [if_pos hbr] at h
      simp only [Option.some.injEq] at h
      subst h
      exact hbr
    · rw [if_neg hbr] at h
      exact ih _ _ h

/-- Claim C5 as amended: for k > 0 and any max_loops other than 0, if
runnable fireworks remain available throughout, a terminating
rapidfire call with nlaunches = k ends with num_launched = k, and
exactly k of its rocket invocations actually ran (not-run invocations
are not counted).  With max_loops = 0 the outer loop body never runs at
all, so the claim's "regardless of the max_loops setting" fails. -/
theorem c5_rapidfire_k_amended (env : RFEnv) (k : Nat) (max_loops : Int)
    (ifuel ofuel : Nat) (s : RFState)
    (_hk : 0 < k) (hml : max_loops ≠ 0)
    (hre : ∀ n, env.runExists n = true)
    (h : rapidfire env (k : Int) max_loops ifuel ofuel = some s) :
    s.numLaunched = k ∧ countRan env s.invocations = k := by
  cases ofuel with
  | zero => exact absurd h (by simp [rapidfire, rfOuter])
  | succ m =>
    rw [rapidfire, rfOuter] at h
    rw [if_neg (show ¬((rfInit.numLoops : Int) = max_loops) by
      simp [rfInit]
      omega)] at h
    cases hinner : rfInner env (k : Int) ifuel rfInit with
    | none =>
      rw [hinner] at h
      cases h
    | some s1 =>
      have hexit : (s1.numLaunched : Int) = (k : Int) :=
        rfInner_exit_all_runs env (k : Int) hre ifuel _ s1 hinner
      rw [hinner, Option.some_bind, if_pos (Or.inl hexit)] at h
      simp only [Option.some.injEq] at h
      subst h
      have hinv : s1.numLaunched = countRan env s1.invocations :=
        rfInner_preserves env (k : Int)
          (fun t => t.numLaunched = countRan env t.invocations)
          (fun t ht => rfStep_countRan env t ht) ifuel _ s1 hinner rfl
      have hnk : s1.numLaunched = k := by exact_mod_cast hexit
      exact ⟨hnk, hinv ▸ hnk⟩

/-- Oracle for the C5 counterexample and witness: work always exists and
every rocket runs. -/
def rfEnvAllRun : RFEnv :=
  { runExists := fun _ => true, rocketRan := fun _ => true,
    dirEmpty := fun _ => false }

/-- Counterexample to claim C5 as stated: with nlaunches = 1 and
max_loops = 0, rapidfire returns immediately with zero rocket
invocations even though runnable fireworks remain, because the outer
`while num_loops != max_loops` guard is false at entry; so termination
after exactly k successful invocations does not hold regardless of the
max_loops setting. -/
theorem c5_counterexample :
    rapidfire rfEnvAllRun 1 0 5 5 =
      some { numLaunched := 0, numLoops := 0, invocations := 0,
             removedDirs := [] } ∧
    rfEnvAllRun.runExists 0 = true := by
  decide

/-- Final state of the C5 witness run. -/
def rfAllFinal : RFState :=
  { numLaunched := 2, numLoops := 0, invocations := 2, removedDirs := [] }

/-- Witness for the amended claim C5 at a concrete input: nlaunches = 2
against an always-running oracle. -/
theorem c5_rapidfire_k_amended_witness :
    (0 < 2 ∧ (-1 : Int) ≠ 0 ∧
      rapidfire rfEnvAllRun 2 (-1) 5 5 = some rfAllFinal) ∧
    (rfAllFinal.numLaunched = 2 ∧ countRan rfEnvAllRun rfAllFinal.invocations = 2) :=
  ⟨⟨by decide, by decide, by decide⟩,
    c5_rapidfire_k_amended rfEnvAllRun 2 (-1) 5 5 rfAllFinal
      (by decide) (by decide) (fun n => rfl) (by decide)⟩

/-- Claim C6: in a terminating rapidfire run, the launcher directories
removed are exactly those of invocations whose rocket did not run and
whose directory is empty; every other launcher directory is left in
place. -/
theorem c6_rapidfire_rmdir (env : RFEnv) (nlaunches max_loops : Int)
    (ifuel ofuel : Nat) (s : RFState)
    (h : rapidfire env nlaunches max_loops ifuel ofuel = some s) :
    s.removedDirs = removedUpTo env s.invocations :=
  rfOuter_preserves env nlaunches max_loops ifuel
    (fun t => t.removedDirs = removedUpTo env t.invocations)
    (fun t ht => rfStep_removed env t ht)
    (fun _ _ ht => ht)
    ofuel _ s h rfl

/-- Oracle for the C6 witness: the first rocket does not run and leaves
an empty directory, later rockets run. -/
def rfEnvMix : RFEnv :=
  { runExists := fun _ => true, rocketRan := fun i => i != 0,
    dirEmpty := fun i => i == 0 }

/-- Final state of the C6 witness run. -/
def rfMixFinal : RFState :=
  { numLaunched := 2, numLoops := 0, invocations := 3, removedDirs := [0] }

/-- Witness for claim C6 at a concrete input. -/
theorem c6_rapidfire_rmdir_witness :
    rapidfire rfEnvMix 2 (-1) 5 5 = some rfMixFinal ∧
    rfMixFinal.removedDirs = removedUpTo rfEnvMix rfMixFinal.invocations :=
  ⟨by decide, c6_rapidfire_rmdir rfEnvMix 2 (-1) 5 5 rfMixFinal (by decide)⟩

/-- The retry loop of create_datestamp_dir only returns paths that do
not already exist and that are the prefixed rendering of some utcnow
reading. -/
theorem cdsLoop_fresh (env : DirOracle) (root_dir prfx : String) :
    ∀ (fuel n : Nat) (p : String),
      cdsLoop env root_dir prfx fuel n = some p →
      env.exists0 p = false ∧
        ∃ m, p = root_dir ++ "/" ++ (prfx ++ fwBlockFormat (env.timeAt m)) := by
  intro fuel
  induction fuel with
  | zero =>
    intro n p h
    exact absurd h (by simp [cdsLoop])
  | succ k ih =>
    intro n p h
    rw [cdsLoop] at h
    by_cases hex : env.exists0 (get_path env root_dir prfx n) = true
    · rw [if_pos hex] at h
      exact ih _ _ h
    · rw [if_neg hex] at h
      simp only [Option.some.injEq] at h
      subst h
      exact ⟨by simpa using hex, n, rfl⟩

/-- Claim C7: every directory create_datestamp_dir returns under the
prefix rapidfire passes is named launcher_ followed by a utcnow reading
rendered in FW_BLOCK_FORMAT, and the returned path did not exist before
the call (colliding names are regenerated from a fresh timestamp until
an unused one is found). -/
theorem c7_create_datestamp_dir_fresh (env : DirOracle) (root_dir : String)
    (fuel : Nat) (p : String)
    (h : create_datestamp_dir env root_dir rapidfireDirTag fuel =
      some p) :
    env.exists0 p = false ∧
      ∃ n, p = root_dir ++ "/" ++
        ("launcher_" ++ fwBlockFormat (env.timeAt n)) :=
  cdsLoop_fresh env root_dir rapidfireDirTag fuel 0 p h

/-- Oracle for the C7 witness: the first generated name collides with an
existing directory, the second is free. -/
def dirOracleW : DirOracle :=
  { exists0 := fun s => s == "/base/launcher_2026-10-12-08-30-00-000000",
    timeAt := fun n =>
      { year := 2026, month := 10, day := 12, hour := 8, minute := 30,
        second := n, microsecond := 0 } }

/-- Witness for claim C7 at a concrete input. -/
theorem c7_create_datestamp_dir_fresh_witness :
    create_datestamp_dir dirOracleW "/base" rapidfireDirTag 3 =
      some "/base/launcher_2026-10-12-08-30-01-000000" ∧
    (dirOracleW.exists0 "/base/launcher_2026-10-12-08-30-01-000000" = false ∧
      ∃ n, ("/base/launcher_2026-10-12-08-30-01-000000" : String) =
        "/base" ++ "/" ++ ("launcher_" ++ fwBlockFormat (dirOracleW.timeAt n))) :=
  ⟨by decide, c7_create_datestamp_dir_fresh dirOracleW "/base" 3
    "/base/launcher_2026-10-12-08-30-01-000000" (by decide)⟩

/-- Looking up the key just written. -/
theorem mapSet_self {α : Type} (m : String → Option α) (k : String)
    (v : Option α) : mapSet m k v k = v := by
  simp [mapSet]

/-- Two writes to the same key collapse to the last one. -/
theorem mapSet_mapSet {α : Type} (m : String → Option α) (k : String)
    (v w : Option α) : mapSet (mapSet m k v) k w = mapSet m k w := by
  funext s
  by_cases h : s = k <;> simp [mapSet, h]

/-- Writing back the value already present changes nothing. -/
theorem mapSet_lookup_self {α : Type} (m : String → Option α) (k : String)
    (v : Option α) (h : m k = v) : mapSet m k v = m := by
  funext s
  by_cases hs : s = k <;> simp [mapSet, hs, h.symm]

/-- runTimer distributes over list append. -/
theorem runTimer_append (l1 l2 : List TimerEvent) :
    ∀ st, runTimer st (l1 ++ l2) =
      (runTimer st l1).bind (fun m => runTimer m l2) := by
  induction l1 with
  | nil =>
    intro st
    simp [runTimer]
  | cons e rest ih =>
    intro st
    cases e with
    | start stage now =>
      simp only [List.cons_append, runTimer]
      exact ih _
    | stop stage now =>
      simp only [List.cons_append, runTimer]
      cases timerStop st stage now with
      | none => simp
      | some st' => simpa using ih st'

/-- Nested (non-first) starts only increase the active depth. -/
theorem runTimer_nested_starts (stage : String) :
    ∀ (ts : List Int) (st : TimerState) (d : Nat),
      st.stageActive stage = some d →
      runTimer st (ts.map (fun t => TimerEvent.start stage t)) =
        some { st with
               stageActive := mapSet st.stageActive stage
                 (some (d + ts.length)) } := by
  intro ts
  induction ts with
  | nil =>
    intro st d hd
    simp [runTimer, mapSet_lookup_self st.stageActive stage _ hd]
  | cons t rest ih =>
    intro st d hd
    simp only [List.map_cons, runTimer]
    have h1 : timerStart st stage t =
        { st with
          stageActive := mapSet st.stageActive stage (some (d + 1)) } := by
      simp [timerStart, hd]
    rw [h1, ih _ (d + 1) (mapSet_self st.stageActive stage _)]
    rw [mapSet_mapSet]
    have harith : d + 1 + rest.length = d + (t :: rest).length := by
      simp
      omega
    rw [harith]

/-- Nested (non-final) stops only decrease the active depth. -/
theorem runTimer_nested_stops (stage : String) :
    ∀ (us : List Int) (st : TimerState) (d : Nat),
      st.stageActive stage = some d → us.length < d →
      runTimer st (us.map (fun u => TimerEvent.stop stage u)) =
        some { st with
               stageActive := mapSet st.stageActive stage
                 (some (d - us.length)) } := by
  intro us
  induction us with
  | nil =>
    intro st d hd _
    simp [runTimer, mapSet_lookup_self st.stageActive stage _ hd]
  | cons u rest ih =>
    intro st d hd hlt
    have hlt' : rest.length + 1 < d + 1 := by
      simpa using Nat.lt_succ_of_lt hlt
    have hne : ¬(d = 1) := by
      have : rest.length + 1 < d := by simpa using hlt
      omega
    simp only [List.map_cons, runTimer]
    have h1 : timerStop st stage u =
        some { st with
               stageActive := mapSet st.stageActive stage (some (d - 1)) } := by
      simp [timerStop, hd, hne]
    rw [h1, Option.some_bind,
      ih _ (d - 1) (mapSet_self st.stageActive stage _)
        (by
          have : rest.length + 1 < d := by simpa using hlt
          omega)]
    rw [mapSet_mapSet]
    have harith : d - 1 - rest.length = d - (u :: rest).length := by
      simp
      omega
    rw [harith]

/-- Claim C10: a balanced run of n nested starts followed by n stops on
one stage adds exactly the interval from the first start to the last
stop to the stage's accumulated time, bumps the stage's completion
count by exactly one, deactivates the stage, and touches nothing else;
the inner nested pairs contribute nothing. -/
theorem c10_timer_nested_balanced (st : TimerState) (stage : String)
    (t1 uLast : Int) (ts us : List Int)
    (hlen : ts.length = us.length)
    (hact : st.stageActive stage = none) :
    runTimer st (balancedSeq stage t1 ts us uLast) =
      some { stageTimes := mapSet st.stageTimes stage
               (some ((st.stageTimes stage).getD 0 + (uLast - t1)))
             stageCounts := mapSet st.stageCounts stage
               (some ((st.stageCounts stage).getD 0 + 1))
             stageActive := mapSet st.stageActive stage none } := by
  have h1 : timerStart st stage t1 =
      { st with
        stageTimes := mapSet st.stageTimes stage
          (some ((st.stageTimes stage).getD 0 - t1))
        stageActive := mapSet st.stageActive stage (some 1) } := by
    simp [timerStart, hact]
  rw [balancedSeq]
  simp only [runTimer]
  rw [h1]
  rw [runTimer_append]
  rw [runTimer_append]
  rw [runTimer_nested_starts stage ts _ 1 (mapSet_self st.stageActive stage _)]
  rw [Option.some_bind]
  rw [runTimer_nested_stops stage us _ (1 + ts.length)
    (by rw [mapSet_mapSet]; exact mapSet_self st.stageActive stage _)
    (by omega)]
  rw [Option.some_bind]
  simp only [runTimer]
  have hone : 1 + ts.length - us.length = 1 := by omega
  have hstop : timerStop
      { st with
        stageTimes := mapSet st.stageTimes stage
          (some ((st.stageTimes stage).getD 0 - t1))
        stageActive := mapSet
          (mapSet (mapSet st.stageActive stage (some 1)) stage
            (some (1 + ts.length))) stage
          (some (1 + ts.length - us.length)) } stage uLast =
      some { stageTimes := mapSet st.stageTimes stage
               (some ((st.stageTimes stage).getD 0 + (uLast - t1)))
             stageCounts := mapSet st.stageCounts stage
               (some ((st.stageCounts stage).getD 0 + 1))
             stageActive := mapSet st.stageActive stage none } := by
    have harith : (st.stageTimes stage).getD 0 - t1 + uLast =
        (st.stageTimes stage).getD 0 + (uLast - t1) := by ring
    rw [timerStop]
    simp only [mapSet_mapSet, hone, mapSet_self]
    rw [if_pos trivial]
    simp only [Option.getD_some, harith]
  rw [hstop, Option.some_bind]

/-- An empty timer state for the C10 witness. -/
def timerInit : TimerState :=
  { stageTimes := fun _ => none, stageCounts := fun _ => none,
    stageActive := fun _ => none }

/-- Witness for claim C10 at a concrete input: a depth-2 balanced
start/start/stop/stop run on one stage. -/
theorem c10_timer_nested_balanced_witness :
    (([4] : List Int).length = ([6] : List Int).length ∧
      timerInit.stageActive "s" = none) ∧
    runTimer timerInit (balancedSeq "s" 3 [4] [6] 10) =
      some { stageTimes := mapSet timerInit.stageTimes "s"
               (some ((timerInit.stageTimes "s").getD 0 + (10 - 3)))
             stageCounts := mapSet timerInit.stageCounts "s"
               (some ((timerInit.stageCounts "s").getD 0 + 1))
             stageActive := mapSet timerInit.stageActive "s" none } :=
  ⟨⟨rfl, rfl⟩, c10_timer_nested_balanced timerInit "s" 3 10 [4] [6] rfl rfl⟩

end Fireworks
